import Mathlib

/-!
# Verification of the Vibe code-agent workflow

Shallow embedding of the procedural core of the repository:

* `src/src/inngest/functions.ts` — the `codeAgentFunction` workflow handler:
  the `terminal` and `createOrUpdateFiles` tool handlers, the
  `lifecycle.onResponse` hook, the network `router`, the `isError`
  classification and the `save-result` persistence step;
* `src/src/modules/projects/server/procedures.ts` — `projectsRouter.create`
  (its `inngest.send` enqueue site);
* the messages router (`messagesRouter.create`) — input validation,
  ownership check, credit consumption, user-message write and enqueue.

JavaScript string-keyed objects are embedded as association lists
`List (String × String)` whose key order mirrors JS insertion order
(`obj[k] = v` updates in place when `k` exists and appends otherwise).
-/

/-! ## JS object primitives -/

/-- JS property write `obj[k] = v` on a string-keyed record: if `k` is
already a key, its value is replaced in place; otherwise `(k, v)` is
appended at the end (JS string-key enumeration order). -/
def recordSet : List (String × String) → String → String → List (String × String)
  | [], k, v => [(k, v)]
  | (k', v') :: rest, k, v =>
      if k' = k then (k', v) :: rest else (k', v') :: recordSet rest k v

/-- JS property read `obj[k]`: the value at key `k`, if present. -/
def recordGet : List (String × String) → String → Option String
  | [], _ => none
  | (k', v') :: rest, k => if k' = k then some v' else recordGet rest k

/-- The keys of a record, in enumeration order (`Object.keys`). -/
def recordKeys (m : List (String × String)) : List String :=
  m.map Prod.fst

/-- JS string truthiness: a string is truthy iff it is non-empty. -/
def jsTruthy (s : String) : Bool :=
  !(s == "")

/-! ## Shared agent state (`AgentState` in functions.ts) -/

/-- `interface AgentState { summary: string; files: {[path: string]: string} }` -/
structure AgentState where
  summary : String
  files : List (String × String)
deriving Repr, DecidableEq

/-! ## The `createOrUpdateFiles` tool handler (functions.ts lines 102–143) -/

/-- One `{path, content}` element of the tool's `files` argument. -/
structure FileEntry where
  path : String
  content : String
deriving Repr, DecidableEq

/-- The `for (const file of files)` loop of the `createOrUpdateFiles` step
closure.  `acc` is `updateFiles`, which ALIASES `network.state.data.files`
(the source reads `const updateFiles = network.state.data.files || {}`, and
the state's `files` field is always an object, so `||` returns the shared
object itself).  `failAt = some i` means the `sandbox.files.write` call for
the `i`-th entry throws; the merge line for that entry is then not reached.
Returns (result of the `try` block — `none` when it threw — together with
the mutated aliased object at that moment). -/
def writeFilesLoop :
    List FileEntry → Option Nat → List (String × String) →
    Option (List (String × String)) × List (String × String)
  | [], _, acc => (some acc, acc)
  | _ :: _, some 0, acc => (none, acc)
  | e :: rest, some (i + 1), acc => writeFilesLoop rest (some i) (recordSet acc e.path e.content)
  | e :: rest, none, acc => writeFilesLoop rest none (recordSet acc e.path e.content)

/-- Outcome of one `createOrUpdateFiles` tool invocation:
`stepResult` is the value of `newFiles` (the `step.run` result — the merged
object on success, the string `"error" + e` when the try block caught);
`sharedFiles` is `network.state.data.files` after the handler returns.
(The tool handler itself returns `undefined` in both cases: it has no
`return` statement after the `if (typeof newFiles === "object")` guard.) -/
structure CreateOrUpdateOutcome where
  stepResult : Except String (List (String × String))
  sharedFiles : List (String × String)
deriving Repr

/-- The `createOrUpdateFiles` handler (functions.ts lines 113–142), as a
function of the shared files map before the call, the `files` argument,
and the sandbox behaviour: `failAt = some i` (with exception text
`errText`) means the write of entry `i` throws; `failAt = none` means all
writes succeed.  On success the `typeof newFiles === "object"` guard
assigns the merged object back to the shared state; on failure the guard
skips the assignment, but the entries merged before the throw are already
visible through the alias. -/
def createOrUpdateFiles (shared : List (String × String)) (files : List FileEntry)
    (failAt : Option Nat) (errText : String) : CreateOrUpdateOutcome :=
  match writeFilesLoop files failAt shared with
  | (some newFiles, _) => ⟨Except.ok newFiles, newFiles⟩
  | (none, mutated) => ⟨Except.error ("error" ++ errText), mutated⟩

/-- The pure merge the loop performs when every write succeeds:
left fold of JS property writes (last write per path wins). -/
def mergeFiles (m : List (String × String)) (entries : List FileEntry) :
    List (String × String) :=
  entries.foldl (fun acc e => recordSet acc e.path e.content) m

/-! ## The `terminal` tool handler (functions.ts lines 73–101) -/

/-- What `sandbox.commands.run` resolved to on the success path. -/
structure CommandResult where
  stdout : String
  stderr : String
deriving Repr, DecidableEq

/-- One observed `sandbox.commands.run` call: either it resolves with a
`CommandResult` or it throws with text `e`; `capturedStdout` /
`capturedStderr` are the `buffers` accumulated by the `onStdout` /
`onStderr` callbacks up to that moment. -/
structure TerminalCall where
  outcome : Except String CommandResult
  capturedStdout : String
  capturedStderr : String

/-- The `terminal` tool handler body (the `step.run ("terminal")` closure):
on success it returns `result.stdout`; when `run` throws it returns the
template literal built from the exception and both captured buffers. -/
def terminal (call : TerminalCall) : String :=
  match call.outcome with
  | Except.ok result => result.stdout
  | Except.error e =>
      "command failed : " ++ e ++ " \n stdout: " ++ call.capturedStdout ++
        " \n stderr " ++ call.capturedStderr

/-! ## The lifecycle hook (functions.ts lines 168–179) -/

/-- The sentinel marker the hook scans for. -/
def taskSummaryMarker : String := "<task_summary>"

/-- JS `String.prototype.includes`: `t` contains `pat` as a substring,
i.e. `pat`'s character list is a contiguous infix of `t`'s. -/
def jsIncludes (t pat : String) : Bool :=
  decide (pat.toList <:+: t.toList)

/-- Whether the first list starts the second. -/
def listStartsWith : List Char → List Char → Bool
  | [], _ => true
  | _ :: _, [] => false
  | p :: ps, c :: cs => p = c && listStartsWith ps cs

/-- Split a character list around the first occurrence of `pat`:
`some (before, after)` when `pat` occurs, `none` otherwise. -/
def listSplitFirst (pat : List Char) : List Char → Option (List Char × List Char)
  | [] => if pat.isEmpty then some ([], []) else none
  | c :: rest =>
      if listStartsWith pat (c :: rest) then
        some ([], (c :: rest).drop pat.length)
      else
        match listSplitFirst pat rest with
        | some (b, a) => some (c :: b, a)
        | none => none

/-- Modelled from the spec: "the enclosed text" of a sentinel-marked
message — the text strictly between the `<task_summary>` marker and the
closing `</task_summary>` tag (up to the end when the closing tag is
absent, empty when the marker is absent).  The repository has no such
extraction function; this is the spec's description, used to compare
against what the hook actually stores. -/
def specEnclosedText (t : String) : String :=
  match listSplitFirst "<task_summary>".toList t.toList with
  | none => ""
  | some (_, after) =>
      match listSplitFirst "</task_summary>".toList after with
      | none => String.mk after
      | some (before, _) => String.mk before

/-- `lifecycle.onResponse`: `lastText` is
`lastAssistantTextMessageContent(result)` (the full text content of the
latest assistant message, `none` when there is none).  If that text is
truthy and includes `"<task_summary>"`, the WHOLE text is assigned to
`network.state.data.summary`; otherwise the state is untouched. -/
def onResponse (lastText : Option String) (st : AgentState) : AgentState :=
  match lastText with
  | none => st
  | some t =>
      if jsTruthy t && jsIncludes t taskSummaryMarker then
        { st with summary := t }
      else
        st

/-! ## The network router and loop (functions.ts lines 182–198) -/

/-- `maxIter: 15` in the `createNetwork` configuration. -/
def maxIter : Nat := 15

/-- The name of the single agent in the network. -/
def codeAgentName : String := "code-agent"

/-- A router outcome: `return;` (undefined) stops the network, returning
an agent continues with it. -/
inductive RouterDecision
  | stop
  | continueWith (agentName : String)
deriving Repr, DecidableEq

/-- The network `router`: reads `network.state.data.summary`; if it is
truthy, returns undefined (stop); otherwise returns `codeAgent`. -/
def router (summary : String) : RouterDecision :=
  if jsTruthy summary then
    RouterDecision.stop
  else
    RouterDecision.continueWith codeAgentName

/-- One agent turn, abstracted: the agent's tool calls leave the shared
files map in some state and the turn ends with an optional latest
assistant text.  `turn` is indexed by the iteration number; it is
universally quantified in the theorems, covering every agent behaviour. -/
def runAgentTurn (turn : Nat → AgentState → List (String × String) × Option String)
    (i : Nat) (st : AgentState) : AgentState :=
  let (newFiles, lastText) := turn i st
  onResponse lastText { st with files := newFiles }

/-- Modelled from the spec: the network loop driver (`network.run` of the
external agent-orchestration SDK, not part of this repository's source):
at each iteration the router decides over the current shared state; on
stop the loop ends, otherwise the single agent runs one turn and the
lifecycle hook processes its response; the loop is hard-bounded by the
configured maximum iteration count (`fuel`).  Returns the final state and
the number of iterations performed (`count` accumulates from the caller's
starting value). -/
def runNetworkLoop (turn : Nat → AgentState → List (String × String) × Option String) :
    Nat → Nat → AgentState → AgentState × Nat
  | 0, count, st => (st, count)
  | fuel + 1, count, st =>
      match router st.summary with
      | RouterDecision.stop => (st, count)
      | RouterDecision.continueWith _ =>
          runNetworkLoop turn fuel (count + 1) (runAgentTurn turn count st)

/-! ## Message records and the `save-result` step (functions.ts lines 223–257) -/

/-- Prisma `MessageRole`. -/
inductive MessageRole
  | USER
  | ASSISTANT
deriving Repr, DecidableEq

/-- Prisma `MessageType`. -/
inductive MessageType
  | RESULT
  | ERROR
deriving Repr, DecidableEq

/-- A persisted Fragment: `{ sandBoxUrl, title, files }`. -/
structure Fragment where
  sandBoxUrl : String
  title : String
  files : List (String × String)
deriving Repr, DecidableEq

/-- A persisted Message row, with its (0 or 1) nested Fragment; fragments
are only ever created nested inside a `prisma.message.create`, so each
fragment belongs to exactly the message it is stored in. -/
structure MessageRecord where
  projectId : String
  content : String
  role : MessageRole
  mtype : MessageType
  fragment : Option Fragment
deriving Repr, DecidableEq

/-- The fixed user-facing error string of the `save-result` step. -/
def errorContent : String := "Something went wrong. try again!!!"

/-- `isError` (functions.ts line 223): `!result.state.data.summary ||
Object.keys(result.state.data.files || {}).length === 0` — a pure function
of the two final-state fields, computed once after the loop. -/
def isError (summary : String) (files : List (String × String)) : Bool :=
  !(jsTruthy summary) || (recordKeys files).length == 0

/-- The `save-result` step: a single `prisma.message.create`.  On the
error classification it writes an ASSISTANT/ERROR row with the fixed
string and no fragment; otherwise an ASSISTANT/RESULT row whose content is
the post-processed response text, with the Fragment
`{ sandBoxUrl, title, files }` created in the same write. -/
def saveResult (projectId summary : String) (files : List (String × String))
    (sandboxURL fragmentTitle responseText : String) : MessageRecord :=
  if isError summary files then
    { projectId := projectId
      content := errorContent
      role := MessageRole.ASSISTANT
      mtype := MessageType.ERROR
      fragment := none }
  else
    { projectId := projectId
      content := responseText
      role := MessageRole.ASSISTANT
      mtype := MessageType.RESULT
      fragment := some { sandBoxUrl := sandboxURL, title := fragmentTitle, files := files } }

/-! ## Enqueue payloads (procedures.ts lines 47–53; messages router lines 85–91) -/

/-- An inngest event: name plus the `data` object's key/value pairs. -/
structure InngestEvent where
  name : String
  data : List (String × String)
deriving Repr, DecidableEq

/-- The `inngest.send` payload of the message-creation mutation
(`messagesRouter.create`): `{ value: input.value, projectId: input.projectId }`. -/
def messageCreateEvent (value projectId : String) : InngestEvent :=
  { name := "code-agent/run"
    data := [("value", value), ("projectId", projectId)] }

/-- The `inngest.send` payload of the project-creation mutation
(`projectsRouter.create`, procedures.ts lines 47–53):
`{ value: input.value, projectID: createdProject.id }` — note the key is
spelled `projectID`, capital D, in the source. -/
def projectCreateEvent (value createdProjectId : String) : InngestEvent :=
  { name := "code-agent/run"
    data := [("value", value), ("projectID", createdProjectId)] }

/-- What the workflow handler reads from the event:
`event.data.projectId` (functions.ts lines 31 and 235). -/
def eventProjectId (e : InngestEvent) : Option String :=
  recordGet e.data "projectId"

/-! ## The message-creation mutation (`messagesRouter.create`) -/

/-- tRPC error codes the mutation can throw. -/
inductive TrpcCode
  | BAD_REQUEST
  | NOT_FOUND
  | TOO_MANY_REQUESTS
deriving Repr, DecidableEq

/-- A mutation failure: either the zod input validation rejects, or a
`TRPCError` with a code is thrown. -/
inductive MutationError
  | validation
  | trpc (code : TrpcCode)
deriving Repr, DecidableEq

/-- How `consumeCredits()` behaves for this caller: it resolves, it throws
an `Error` instance (e.g. not authenticated), or it rejects with the rate
limiter's non-`Error` result object, which is what happens when the credit
balance is exhausted. -/
inductive CreditOutcome
  | ok
  | raisesError
  | raisesLimit
deriving Repr, DecidableEq

/-- The mutation's input `{ value, projectId }`. -/
structure MessagesCreateInput where
  value : String
  projectId : String
deriving Repr, DecidableEq

/-- The caller-dependent context of one mutation call: whether
`prisma.project.findUnique({id, userId})` finds the project (i.e. it
exists and belongs to the caller), and how `consumeCredits()` behaves. -/
structure MessagesCreateCtx where
  ownsProject : Bool
  credit : CreditOutcome
deriving Repr, DecidableEq

/-- The side effects of a successful mutation call: the Message rows
created and the inngest events sent, in order. -/
structure MutationEffects where
  created : List MessageRecord
  events : List InngestEvent
deriving Repr, DecidableEq

/-- `messagesRouter.create`:
zod validation (`value` 1..10000 chars, `projectId` non-empty), then the
ownership lookup (`NOT_FOUND` when absent), then `consumeCredits` in
`try/catch` (`Error` → `BAD_REQUEST`, non-`Error` → `TOO_MANY_REQUESTS`),
then one USER/RESULT `prisma.message.create`, then one `inngest.send`.
A thrown error aborts before any later side effect. -/
def messagesCreate (input : MessagesCreateInput) (ctx : MessagesCreateCtx) :
    Except MutationError MutationEffects :=
  if input.value.length < 1 ∨ input.value.length > 10000 ∨ input.projectId.length < 1 then
    Except.error MutationError.validation
  else if ctx.ownsProject = false then
    Except.error (MutationError.trpc TrpcCode.NOT_FOUND)
  else
    match ctx.credit with
    | CreditOutcome.raisesError => Except.error (MutationError.trpc TrpcCode.BAD_REQUEST)
    | CreditOutcome.raisesLimit => Except.error (MutationError.trpc TrpcCode.TOO_MANY_REQUESTS)
    | CreditOutcome.ok =>
        Except.ok
          { created := [{ projectId := input.projectId
                          content := input.value
                          role := MessageRole.USER
                          mtype := MessageType.RESULT
                          fragment := none }]
            events := [messageCreateEvent input.value input.projectId] }

/-! ## Database states reachable through the message-creation operations -/

/-- The two writes the claims range over: the mutation boundary's
USER-message `prisma.message.create` and the workflow handler's
`save-result` step. -/
inductive DBWrite
  | userMessage (projectId content : String)
  | agentResult (projectId summary : String) (files : List (String × String))
      (sandboxURL fragmentTitle responseText : String)

/-- Apply one write to the message table (append-only). -/
def applyWrite (db : List MessageRecord) : DBWrite → List MessageRecord
  | DBWrite.userMessage pid content =>
      db ++ [{ projectId := pid
               content := content
               role := MessageRole.USER
               mtype := MessageType.RESULT
               fragment := none }]
  | DBWrite.agentResult pid summary files url title resp =>
      db ++ [saveResult pid summary files url title resp]

/-- Database states reachable from the empty table through the two
message-creation operations. -/
inductive Reachable : List MessageRecord → Prop
  | empty : Reachable []
  | write (db : List MessageRecord) (w : DBWrite) :
      Reachable db → Reachable (applyWrite db w)


/-! ## Lemmas about JS record writes -/

/-- Overwriting the same key twice keeps only the second value. -/
theorem recordSet_recordSet_self (m : List (String × String)) (k v v' : String) :
    recordSet (recordSet m k v) k v' = recordSet m k v' := by
  induction m with
  | nil => simp [recordSet]
  | cons hd tl ih =>
      obtain ⟨k0, v0⟩ := hd
      by_cases hk : k0 = k
      · simp [recordSet, hk]
      · simp [recordSet, hk, ih]

/-- After `recordSet m k v`, `k` is a key. -/
theorem mem_keys_recordSet_self (m : List (String × String)) (k v : String) :
    k ∈ recordKeys (recordSet m k v) := by
  induction m with
  | nil => simp [recordSet, recordKeys]
  | cons hd tl ih =>
      obtain ⟨k0, v0⟩ := hd
      by_cases hk : k0 = k
      · simp [recordSet, hk, recordKeys]
      · simpa [recordSet, hk, recordKeys] using Or.inr (by simpa [recordKeys] using ih)

/-- `recordSet` never removes keys. -/
theorem mem_keys_recordSet (m : List (String × String)) (k k' v : String)
    (h : k ∈ recordKeys m) : k ∈ recordKeys (recordSet m k' v) := by
  induction m with
  | nil => simp [recordKeys] at h
  | cons hd tl ih =>
      obtain ⟨k0, v0⟩ := hd
      have h' : k = k0 ∨ k ∈ recordKeys tl := by simpa [recordKeys] using h
      by_cases hk : k0 = k'
      · rcases h' with h0 | h0
        · simp [recordSet, hk, recordKeys, h0]
        · simp [recordSet, hk, recordKeys]
          exact Or.inr (by simpa [recordKeys] using h0)
      · rcases h' with h0 | h0
        · simp [recordSet, hk, recordKeys, h0]
        · simp [recordSet, hk, recordKeys]
          exact Or.inr (by simpa [recordKeys] using ih h0)

/-- Writes to two distinct keys commute when the first key is already
present (so neither order appends it). -/
theorem recordSet_comm (m : List (String × String)) (k k' v v' : String)
    (hmem : k ∈ recordKeys m) (hne : k ≠ k') :
    recordSet (recordSet m k v) k' v' = recordSet (recordSet m k' v') k v := by
  induction m with
  | nil => simp [recordKeys] at hmem
  | cons hd tl ih =>
      obtain ⟨k0, v0⟩ := hd
      have hmem' : k = k0 ∨ k ∈ recordKeys tl := by simpa [recordKeys] using hmem
      by_cases h0 : k0 = k
      · subst h0
        simp [recordSet, hne, Ne.symm hne]
      · by_cases h1 : k0 = k'
        · subst h1
          simp [recordSet, h0]
        · have hk : k ∈ recordKeys tl := by
            rcases hmem' with h | h
            · exact absurd h.symm h0
            · exact h
          simp [recordSet, h0, h1, ih hk]

/-- Reading the key just written. -/
theorem recordGet_recordSet_self (m : List (String × String)) (k v : String) :
    recordGet (recordSet m k v) k = some v := by
  induction m with
  | nil => simp [recordSet, recordGet]
  | cons hd tl ih =>
      obtain ⟨k0, v0⟩ := hd
      by_cases hk : k0 = k
      · simp [recordSet, recordGet, hk]
      · simp [recordSet, recordGet, hk, ih]

/-- Reading another key is unaffected by a write. -/
theorem recordGet_recordSet_ne (m : List (String × String)) (k k' v : String)
    (h : k' ≠ k) : recordGet (recordSet m k v) k' = recordGet m k' := by
  induction m with
  | nil => simp [recordSet, recordGet, Ne.symm h]
  | cons hd tl ih =>
      obtain ⟨k0, v0⟩ := hd
      by_cases hk : k0 = k
      · subst hk
        simp [recordSet, recordGet, Ne.symm h]
      · simp [recordSet, recordGet, hk, ih]

/-- Writing a value a key already holds is the identity. -/
theorem recordSet_eq_self_of_get (m : List (String × String)) (k v : String)
    (h : recordGet m k = some v) : recordSet m k v = m := by
  induction m with
  | nil => simp [recordGet] at h
  | cons hd tl ih =>
      obtain ⟨k0, v0⟩ := hd
      by_cases hk : k0 = k
      · have : v0 = v := by
          have := h
          simp [recordGet, hk] at this
          exact this
        simp [recordSet, hk, this]
      · have h' : recordGet tl k = some v := by simpa [recordGet, hk] using h
        simp [recordSet, hk, ih h']

/-! ## Lemmas about the files merge -/

/-- Unfolding one entry of the merge. -/
theorem mergeFiles_cons (m : List (String × String)) (e : FileEntry) (L : List FileEntry) :
    mergeFiles m (e :: L) = mergeFiles (recordSet m e.path e.content) L := rfl

/-- The merge never removes keys. -/
theorem mem_keys_mergeFiles (m : List (String × String)) (L : List FileEntry) (k : String)
    (h : k ∈ recordKeys m) : k ∈ recordKeys (mergeFiles m L) := by
  induction L generalizing m with
  | nil => simpa [mergeFiles] using h
  | cons e L ih =>
      rw [mergeFiles_cons]
      exact ih _ (mem_keys_recordSet m k e.path e.content h)

/-- Paths not mentioned by the entry list are untouched by the merge. -/
theorem recordGet_mergeFiles_of_not_mem (m : List (String × String)) (L : List FileEntry)
    (p : String) (h : p ∉ L.map FileEntry.path) :
    recordGet (mergeFiles m L) p = recordGet m p := by
  induction L generalizing m with
  | nil => simp [mergeFiles]
  | cons e L ih =>
      have hp : p ≠ e.path := by
        intro hq
        exact h (by simp [hq])
      have hL : p ∉ L.map FileEntry.path := by
        intro hq
        exact h (by simp [hq])
      rw [mergeFiles_cons, ih _ hL, recordGet_recordSet_ne _ _ _ _ hp]

/-- A write to a key that is already present and that the entry list will
write again is absorbed by the merge. -/
theorem mergeFiles_recordSet_absorb (L : List FileEntry) (m : List (String × String))
    (p c : String) (hkey : p ∈ recordKeys m) (hpath : p ∈ L.map FileEntry.path) :
    mergeFiles (recordSet m p c) L = mergeFiles m L := by
  induction L generalizing m with
  | nil => simp at hpath
  | cons e L ih =>
      by_cases hp : e.path = p
      · subst hp
        rw [mergeFiles_cons, mergeFiles_cons, recordSet_recordSet_self]
      · have hpath' : p ∈ L.map FileEntry.path := by
          rcases (by simpa using hpath) with h | h
          · exact absurd h.symm hp
          · simpa using h
        rw [mergeFiles_cons, mergeFiles_cons,
          recordSet_comm m p e.path c e.content hkey (fun h => hp h.symm)]
        exact ih (recordSet m e.path e.content)
          (mem_keys_recordSet m p e.path e.content hkey) hpath'

/-- Applying the merge of one entry list twice yields the same record as
applying it once. -/
theorem mergeFiles_idem (L : List FileEntry) (m : List (String × String)) :
    mergeFiles (mergeFiles m L) L = mergeFiles m L := by
  induction L generalizing m with
  | nil => rfl
  | cons e L ih =>
      have hM : mergeFiles m (e :: L) = mergeFiles (recordSet m e.path e.content) L := rfl
      rw [hM, mergeFiles_cons]
      by_cases hp : e.path ∈ L.map FileEntry.path
      · rw [mergeFiles_recordSet_absorb L _ e.path e.content
          (mem_keys_mergeFiles _ L e.path (mem_keys_recordSet_self m e.path e.content)) hp]
        exact ih (recordSet m e.path e.content)
      · have hget : recordGet (mergeFiles (recordSet m e.path e.content) L) e.path
            = some e.content := by
          rw [recordGet_mergeFiles_of_not_mem _ L e.path hp]
          exact recordGet_recordSet_self m e.path e.content
        rw [recordSet_eq_self_of_get _ e.path e.content hget]
        exact ih (recordSet m e.path e.content)

/-! ## Lemmas about the `createOrUpdateFiles` loop -/

/-- With no write failure, the loop's try block returns the full merge,
and the aliased object holds that same merge. -/
theorem writeFilesLoop_none (L : List FileEntry) (acc : List (String × String)) :
    writeFilesLoop L none acc = (some (mergeFiles acc L), mergeFiles acc L) := by
  induction L generalizing acc with
  | nil => rfl
  | cons e L ih => simpa [writeFilesLoop, mergeFiles_cons] using ih _

/-- When the sandbox write of entry `i` throws (with `i` in range), the
try block fails and the aliased object holds the merge of the first `i`
entries only. -/
theorem writeFilesLoop_fail (L : List FileEntry) (i : Nat) (acc : List (String × String))
    (h : i < L.length) :
    writeFilesLoop L (some i) acc = (none, mergeFiles acc (L.take i)) := by
  induction L generalizing i acc with
  | nil => simp at h
  | cons e L ih =>
      cases i with
      | zero => simp [writeFilesLoop, mergeFiles]
      | succ i =>
          have h' : i < L.length := by simpa using h
          simpa [writeFilesLoop, mergeFiles_cons] using ih i _ h'

/-- A text that includes the non-empty sentinel marker is truthy. -/
theorem jsTruthy_of_includes_marker (t : String)
    (h : jsIncludes t taskSummaryMarker = true) : jsTruthy t = true := by
  by_contra hf
  have ht : t = "" := by
    by_contra hne
    exact hf (by simpa [jsTruthy] using hne)
  subst ht
  have hinf : taskSummaryMarker.toList <:+: ("" : String).toList := of_decide_eq_true h
  obtain ⟨s, u, hsu⟩ := hinf
  have h3 : s = [] ∧ taskSummaryMarker.data = [] ∧ u = [] := by simpa using hsu
  exact absurd h3.2.1 (by decide)

/-- The Boolean error classification, as a proposition. -/
theorem isError_eq_true_iff (summary : String) (files : List (String × String)) :
    isError summary files = true ↔ (summary = "" ∨ files = []) := by
  simp [isError, jsTruthy, recordKeys, List.length_eq_zero, List.map_eq_nil_iff]

/-! ## Claim theorems -/

/-- C1: the `save-result` step writes an ASSISTANT/ERROR message with the
fixed error string and no Fragment exactly when the final state has an
empty summary or an empty files map; otherwise it writes an
ASSISTANT/RESULT message with the Fragment `{sandBoxUrl, title, files}`
attached in the same write.  The classification is the pure function
`isError` of the two final-state fields alone. -/
theorem saveResult_error_classification :
    ∀ pid summary files url title resp,
      (saveResult pid summary files url title resp =
          { projectId := pid, content := errorContent, role := MessageRole.ASSISTANT,
            mtype := MessageType.ERROR, fragment := none }
        ↔ (summary = "" ∨ files = []))
      ∧ (¬ (summary = "" ∨ files = []) →
          saveResult pid summary files url title resp =
            { projectId := pid, content := resp, role := MessageRole.ASSISTANT,
              mtype := MessageType.RESULT,
              fragment := some { sandBoxUrl := url, title := title, files := files } }) := by
  intro pid summary files url title resp
  by_cases h : summary = "" ∨ files = []
  · have hb : isError summary files = true := (isError_eq_true_iff _ _).mpr h
    exact ⟨by simp [saveResult, hb, h], fun hcon => absurd h hcon⟩
  · have hb : isError summary files = false := by
      cases hh : isError summary files
      · rfl
      · exact absurd ((isError_eq_true_iff _ _).mp hh) h
    constructor
    · simp [saveResult, hb, h]
    · intro _
      simp [saveResult, hb]

/-- Witness for C1: an empty summary is persisted as the fixed ERROR row;
a non-empty summary with one file is persisted as a RESULT row carrying
the fragment. -/
theorem saveResult_error_classification_witness :
    saveResult "p" "" [("a", "1")] "u" "t" "r" =
      { projectId := "p", content := errorContent, role := MessageRole.ASSISTANT,
        mtype := MessageType.ERROR, fragment := none }
    ∧ saveResult "p" "<task_summary>s</task_summary>" [("a", "1")] "u" "t" "r" =
      { projectId := "p", content := "r", role := MessageRole.ASSISTANT,
        mtype := MessageType.RESULT,
        fragment := some { sandBoxUrl := "u", title := "t", files := [("a", "1")] } } := by
  constructor
  · exact (saveResult_error_classification "p" "" [("a", "1")] "u" "t" "r").1.mpr
      (Or.inl rfl)
  · exact (saveResult_error_classification "p" "<task_summary>s</task_summary>"
      [("a", "1")] "u" "t" "r").2 (by simp)

/-- C2 counterexample: with an initially empty shared map and two entries
whose second sandbox write throws, the step result is an error string as
the claim says — but the shared files map is NOT unchanged: the first
entry is already merged into it through the alias. -/
theorem createOrUpdateFiles_shared_mutation_cex :
    (createOrUpdateFiles [] [{ path := "a", content := "1" }, { path := "b", content := "2" }]
        (some 1) "E").stepResult = Except.error ("error" ++ "E")
    ∧ (createOrUpdateFiles [] [{ path := "a", content := "1" }, { path := "b", content := "2" }]
        (some 1) "E").sharedFiles = [("a", "1")]
    ∧ [("a", "1")] ≠ ([] : List (String × String)) := by
  exact ⟨rfl, rfl, by decide⟩

/-- C2 amended: when the sandbox write of entry `i` throws, the step
returns the string `"error" + e` (and the handler's final assignment is
skipped), but because the working object aliases the shared files map,
the shared map ends as the original merged with the entries before the
failing one — a partial merge is visible in shared state. -/
theorem createOrUpdateFiles_failure_alias :
    ∀ (shared : List (String × String)) (files : List FileEntry) (i : Nat) (errText : String),
      i < files.length →
      (createOrUpdateFiles shared files (some i) errText).stepResult
          = Except.error ("error" ++ errText)
      ∧ (createOrUpdateFiles shared files (some i) errText).sharedFiles
          = mergeFiles shared (files.take i) := by
  intro shared files i errText h
  unfold createOrUpdateFiles
  rw [writeFilesLoop_fail files i shared h]
  exact ⟨rfl, rfl⟩

/-- Witness for C2's amended statement at a concrete failing call. -/
theorem createOrUpdateFiles_failure_alias_witness :
    (createOrUpdateFiles [("base", "0")]
        [{ path := "a", content := "1" }, { path := "b", content := "2" }]
        (some 1) "E").stepResult = Except.error ("error" ++ "E")
    ∧ (createOrUpdateFiles [("base", "0")]
        [{ path := "a", content := "1" }, { path := "b", content := "2" }]
        (some 1) "E").sharedFiles
      = mergeFiles [("base", "0")]
          ([{ path := "a", content := "1" }, { path := "b", content := "2" }].take 1) := by
  exact createOrUpdateFiles_failure_alias [("base", "0")]
    [{ path := "a", content := "1" }, { path := "b", content := "2" }] 1 "E" (by decide)

/-- C3 counterexample: for the assistant text
`"<task_summary>done</task_summary>"` the hook stores the whole text —
marker tags included — into the shared summary, not the enclosed text
`"done"` that the claim says is stored. -/
theorem onResponse_full_text_cex :
    (onResponse (some "<task_summary>done</task_summary>")
        { summary := "", files := [] }).summary = "<task_summary>done</task_summary>"
    ∧ specEnclosedText "<task_summary>done</task_summary>" = "done"
    ∧ (onResponse (some "<task_summary>done</task_summary>")
        { summary := "", files := [] }).summary
      ≠ specEnclosedText "<task_summary>done</task_summary>" := by
  exact ⟨by decide, by decide, by decide⟩

/-- C3 amended: if the latest assistant text contains the sentinel
marker, the ENTIRE text (marker included) is stored into the shared
summary; if the marker is absent — or there is no assistant text — the
state is unchanged. -/
theorem onResponse_marker_behaviour :
    ∀ (t : String) (st : AgentState),
      (jsIncludes t taskSummaryMarker = true →
        onResponse (some t) st = { st with summary := t })
      ∧ (jsIncludes t taskSummaryMarker = false → onResponse (some t) st = st)
      ∧ onResponse none st = st := by
  intro t st
  refine ⟨?_, ?_, rfl⟩
  · intro h
    have ht := jsTruthy_of_includes_marker t h
    simp [onResponse, ht, h]
  · intro h
    simp [onResponse, h]

/-- Witness for C3's amended statement: a marked text is stored whole, an
unmarked text leaves the state unchanged. -/
theorem onResponse_marker_behaviour_witness :
    onResponse (some "<task_summary>ok</task_summary>") { summary := "", files := [] }
      = { summary := "<task_summary>ok</task_summary>", files := [] }
    ∧ onResponse (some "no marker here") { summary := "", files := [] }
      = { summary := "", files := [] } := by
  constructor
  · exact (onResponse_marker_behaviour "<task_summary>ok</task_summary>"
      { summary := "", files := [] }).1 (by decide)
  · exact (onResponse_marker_behaviour "no marker here"
      { summary := "", files := [] }).2.1 (by decide)

/-- C4: the router returns Stop iff the shared summary is non-empty, and
its only other outcome is the single coding agent — no condition other
than the summary decides. -/
theorem router_stop_iff :
    ∀ summary,
      (router summary = RouterDecision.stop ↔ summary ≠ "")
      ∧ (router summary = RouterDecision.stop
          ∨ router summary = RouterDecision.continueWith codeAgentName) := by
  intro s
  by_cases h : s = ""
  · subst h
    exact ⟨by simp [router, jsTruthy], Or.inr (by simp [router, jsTruthy])⟩
  · exact ⟨by simp [router, jsTruthy, h], Or.inl (by simp [router, jsTruthy, h])⟩

/-- Witness for C4: a non-empty summary stops the network, an empty one
routes to the coding agent. -/
theorem router_stop_iff_witness :
    router "done" = RouterDecision.stop
    ∧ router "" = RouterDecision.continueWith codeAgentName := by
  constructor
  · exact (router_stop_iff "done").1.mpr (by decide)
  · exact (router_stop_iff "").2.resolve_left (fun h => (router_stop_iff "").1.mp h rfl)

/-- C5 (code bug): the message-creation enqueue site carries the project
identifier under the key `projectId`, but the project-creation enqueue
site spells the key `projectID`, so the handler's read of
`event.data.projectId` finds nothing on events from that site. -/
theorem projectCreate_event_key_bug :
    ∀ value pid,
      (messageCreateEvent value pid).name = "code-agent/run"
      ∧ (projectCreateEvent value pid).name = "code-agent/run"
      ∧ eventProjectId (messageCreateEvent value pid) = some pid
      ∧ eventProjectId (projectCreateEvent value pid) = none
      ∧ recordGet (projectCreateEvent value pid).data "projectID" = some pid := by
  intro v p
  exact ⟨rfl, rfl, rfl, rfl, rfl⟩

/-- C6: the message-creation mutation rejects an empty or over-long value
with a validation error, a project the caller does not own with
NOT_FOUND, and an exhausted credit balance with TOO_MANY_REQUESTS — each
before any message is created or event enqueued; when every check passes
it creates exactly one USER/RESULT message and then enqueues exactly one
`code-agent/run` event. -/
theorem messagesCreate_checks :
    ∀ (input : MessagesCreateInput) (ctx : MessagesCreateCtx),
      ((input.value = "" ∨ input.value.length > 10000) →
          messagesCreate input ctx = Except.error MutationError.validation)
      ∧ (1 ≤ input.value.length → input.value.length ≤ 10000 →
          1 ≤ input.projectId.length → ctx.ownsProject = false →
          messagesCreate input ctx = Except.error (MutationError.trpc TrpcCode.NOT_FOUND))
      ∧ (1 ≤ input.value.length → input.value.length ≤ 10000 →
          1 ≤ input.projectId.length → ctx.ownsProject = true →
          ctx.credit = CreditOutcome.raisesLimit →
          messagesCreate input ctx
            = Except.error (MutationError.trpc TrpcCode.TOO_MANY_REQUESTS))
      ∧ (1 ≤ input.value.length → input.value.length ≤ 10000 →
          1 ≤ input.projectId.length → ctx.ownsProject = true →
          ctx.credit = CreditOutcome.ok →
          messagesCreate input ctx = Except.ok
            { created := [{ projectId := input.projectId, content := input.value,
                            role := MessageRole.USER, mtype := MessageType.RESULT,
                            fragment := none }]
              events := [messageCreateEvent input.value input.projectId] }) := by
  intro input ctx
  refine ⟨?_, ?_, ?_, ?_⟩
  · intro h
    have hc : input.value.length < 1 ∨ input.value.length > 10000
        ∨ input.projectId.length < 1 := by
      rcases h with h | h
      · have h0 : input.value.length = 0 := by rw [h]; rfl
        omega
      · omega
    simp only [messagesCreate]
    rw [if_pos hc]
  · intro h1 h2 h3 hown
    have hnc : ¬ (input.value.length < 1 ∨ input.value.length > 10000
        ∨ input.projectId.length < 1) := by omega
    simp only [messagesCreate]
    rw [if_neg hnc, if_pos hown]
  · intro h1 h2 h3 hown hcred
    have hnc : ¬ (input.value.length < 1 ∨ input.value.length > 10000
        ∨ input.projectId.length < 1) := by omega
    have hown' : ¬ (ctx.ownsProject = false) := by simp [hown]
    simp only [messagesCreate]
    rw [if_neg hnc, if_neg hown', hcred]
  · intro h1 h2 h3 hown hcred
    have hnc : ¬ (input.value.length < 1 ∨ input.value.length > 10000
        ∨ input.projectId.length < 1) := by omega
    have hown' : ¬ (ctx.ownsProject = false) := by simp [hown]
    simp only [messagesCreate]
    rw [if_neg hnc, if_neg hown', hcred]

/-- Witness for C6: the empty value is rejected with a validation error
and a fully valid call creates one USER/RESULT message and one event. -/
theorem messagesCreate_checks_witness :
    messagesCreate { value := "", projectId := "p1" }
        { ownsProject := true, credit := CreditOutcome.ok }
      = Except.error MutationError.validation
    ∧ messagesCreate { value := "hi", projectId := "p1" }
        { ownsProject := true, credit := CreditOutcome.ok }
      = Except.ok
          { created := [{ projectId := "p1", content := "hi",
                          role := MessageRole.USER, mtype := MessageType.RESULT,
                          fragment := none }]
            events := [messageCreateEvent "hi" "p1"] }
    ∧ messagesCreate { value := "hi", projectId := "p1" }
        { ownsProject := true, credit := CreditOutcome.raisesLimit }
      = Except.error (MutationError.trpc TrpcCode.TOO_MANY_REQUESTS) := by
  refine ⟨?_, ?_, ?_⟩
  · exact (messagesCreate_checks { value := "", projectId := "p1" }
      { ownsProject := true, credit := CreditOutcome.ok }).1 (Or.inl rfl)
  · exact (messagesCreate_checks { value := "hi", projectId := "p1" }
      { ownsProject := true, credit := CreditOutcome.ok }).2.2.2
      (by decide) (by decide) (by decide) rfl rfl
  · exact (messagesCreate_checks { value := "hi", projectId := "p1" }
      { ownsProject := true, credit := CreditOutcome.raisesLimit }).2.2.1
      (by decide) (by decide) (by decide) rfl rfl

/-- C7 counterexample: the mutation boundary's USER-message write reaches
a database state containing a message of type RESULT with no Fragment, so
"every message of type RESULT has exactly one Fragment" fails as stated
(USER messages are written with type RESULT and no fragment). -/
theorem userMessage_result_without_fragment_cex :
    Reachable [{ projectId := "p1", content := "hello", role := MessageRole.USER,
                 mtype := MessageType.RESULT, fragment := none }]
    ∧ ({ projectId := "p1", content := "hello", role := MessageRole.USER,
         mtype := MessageType.RESULT, fragment := none } : MessageRecord).mtype
        = MessageType.RESULT
    ∧ ({ projectId := "p1", content := "hello", role := MessageRole.USER,
         mtype := MessageType.RESULT, fragment := none } : MessageRecord).fragment
        = none := by
  refine ⟨?_, rfl, rfl⟩
  exact Reachable.write [] (DBWrite.userMessage "p1" "hello") Reachable.empty

/-- C7 amended: in every reachable database state, an ERROR message has
no Fragment, and every ASSISTANT message of type RESULT has a Fragment
(the RESULT-implies-Fragment half of the claim holds for assistant
messages; user messages are stored as USER/RESULT without one). -/
theorem reachable_fragment_invariant :
    ∀ db, Reachable db → ∀ m ∈ db,
      (m.mtype = MessageType.ERROR → m.fragment = none)
      ∧ (m.role = MessageRole.ASSISTANT → m.mtype = MessageType.RESULT →
          ∃ f, m.fragment = some f) := by
  intro db h
  induction h with
  | empty =>
      intro m hm
      simp at hm
  | write db w hr ih =>
      intro m hm
      cases w with
      | userMessage pid cnt =>
          have hm' : m ∈ db ∨
              m = MessageRecord.mk pid cnt MessageRole.USER MessageType.RESULT none := by
            simpa [applyWrite] using hm
          rcases hm' with h1 | h1
          · exact ih m h1
          · subst h1
            constructor
            · intro hc
              simp at hc
            · intro hc
              simp at hc
      | agentResult pid summary files url title resp =>
          have hm' : m ∈ db ∨ m = saveResult pid summary files url title resp := by
            simpa [applyWrite] using hm
          rcases hm' with h1 | h1
          · exact ih m h1
          · subst h1
            by_cases he : isError summary files
            · constructor
              · intro _
                simp [saveResult, he]
              · intro hrole hres
                rw [saveResult, if_pos he] at hres
                simp at hres
            · constructor
              · intro hc
                rw [saveResult, if_neg he] at hc
                simp at hc
              · intro _ _
                refine ⟨{ sandBoxUrl := url, title := title, files := files }, ?_⟩
                simp [saveResult, he]

/-- Witness for C7's amended invariant, at the database holding one
terminal ERROR row written by the save-result step after a run with an
empty summary. -/
theorem reachable_fragment_invariant_witness :
    ((saveResult "p1" "" [] "u" "t" "r").mtype = MessageType.ERROR →
        (saveResult "p1" "" [] "u" "t" "r").fragment = none)
    ∧ ((saveResult "p1" "" [] "u" "t" "r").role = MessageRole.ASSISTANT →
        (saveResult "p1" "" [] "u" "t" "r").mtype = MessageType.RESULT →
        ∃ f, (saveResult "p1" "" [] "u" "t" "r").fragment = some f) := by
  exact reachable_fragment_invariant
    (applyWrite [] (DBWrite.agentResult "p1" "" [] "u" "t" "r"))
    (Reachable.write [] (DBWrite.agentResult "p1" "" [] "u" "t" "r") Reachable.empty)
    (saveResult "p1" "" [] "u" "t" "r") (by simp [applyWrite])

/-- Iterations performed by the loop never exceed the remaining fuel. -/
theorem runNetworkLoop_count_le (turn : Nat → AgentState → List (String × String) × Option String)
    (fuel : Nat) :
    ∀ count st, (runNetworkLoop turn fuel count st).2 ≤ count + fuel := by
  induction fuel with
  | zero =>
      intro count st
      simp [runNetworkLoop]
  | succ fuel ih =>
      intro count st
      cases h : router st.summary with
      | stop =>
          simp [runNetworkLoop, h]
      | continueWith a =>
          have hb := ih (count + 1) (runAgentTurn turn count st)
          simp only [runNetworkLoop, h]
          omega

/-- C8: regardless of the agent's outputs (files written, text emitted,
marker never appearing), the network loop performs at most `maxIter = 15`
iterations and then terminates. -/
theorem runNetworkLoop_iteration_bound :
    ∀ (turn : Nat → AgentState → List (String × String) × Option String) (st : AgentState),
      (runNetworkLoop turn maxIter 0 st).2 ≤ maxIter := by
  intro turn st
  simpa using runNetworkLoop_count_le turn maxIter 0 st

/-- C9: applying the `createOrUpdateFiles` merge of one entry list twice
in succession (all sandbox writes succeeding) leaves the same shared
files map as applying it once. -/
theorem createOrUpdateFiles_merge_idem :
    ∀ (shared : List (String × String)) (files : List FileEntry) (errText : String),
      (createOrUpdateFiles
          ((createOrUpdateFiles shared files none errText).sharedFiles)
          files none errText).sharedFiles
        = (createOrUpdateFiles shared files none errText).sharedFiles := by
  intro shared files errText
  simp [createOrUpdateFiles, writeFilesLoop_none, mergeFiles_idem]

/-- C10: when the sandbox command completes without throwing, the
terminal tool returns exactly the command's accumulated stdout —
whatever the incrementally captured buffers hold — and the captured
stderr buffer appears in the returned text only on the throwing path,
where the returned string is the fixed template over the exception text
and both buffers. -/
theorem terminal_output_spec :
    ∀ (res : CommandResult) (bOut bErr bOut' bErr' e : String),
      terminal { outcome := Except.ok res, capturedStdout := bOut, capturedStderr := bErr }
          = res.stdout
      ∧ terminal { outcome := Except.ok res, capturedStdout := bOut, capturedStderr := bErr }
          = terminal { outcome := Except.ok res, capturedStdout := bOut', capturedStderr := bErr' }
      ∧ terminal { outcome := Except.error e, capturedStdout := bOut, capturedStderr := bErr }
          = "command failed : " ++ e ++ " \n stdout: " ++ bOut ++ " \n stderr " ++ bErr := by
  intro res bOut bErr bOut' bErr' e
  exact ⟨rfl, rfl, rfl⟩
